import Mathlib

/-!
Verification development for the stoker microVM orchestrator
(src/firecracker.rs, src/network.rs, src/guest.rs).

The Rust code is shallowly embedded: pure string-formatting expressions
become Lean functions on lists of characters, the persisted-state
directory becomes an association list from file names to file contents,
and the effectful run / rm flows become state-passing functions
parameterised by an environment that records the outcome of each
external effect (process kill, netlink call, HTTP response, ...).
-/

set_option maxRecDepth 8000
set_option maxHeartbeats 1600000

namespace Stoker

/-! ### Decimal rendering, modelling Rust format of an unsigned integer -/

/-- One decimal digit as a character (d is expected to be below 10). -/
def digitToChar (d : Nat) : Char :=
  match d with
  | 0 => '0' | 1 => '1' | 2 => '2' | 3 => '3' | 4 => '4'
  | 5 => '5' | 6 => '6' | 7 => '7' | 8 => '8' | _ => '9'

/-- Numeric value of a decimal digit character. -/
def charToDigit (c : Char) : Nat := c.toNat - 48

/-- Is this character an ASCII decimal digit? -/
def isDigitCh (c : Char) : Bool := 48 ≤ c.toNat && c.toNat ≤ 57

/-- Digits of n, most significant first, prepended to acc; the first
argument is recursion fuel, sufficient whenever it exceeds n. -/
def natReprAux : Nat → Nat → List Char → List Char
  | 0, _, acc => acc
  | fuel + 1, n, acc =>
    if n < 10 then digitToChar n :: acc
    else natReprAux fuel (n / 10) (digitToChar (n % 10) :: acc)

/-- Decimal representation of a natural number, as Rust formats it. -/
def natRepr (n : Nat) : List Char := natReprAux (n + 1) n []

/-- Accumulating decimal value of a digit string. -/
def valAux (a : Nat) : List Char → Nat
  | [] => a
  | c :: cs => valAux (a * 10 + charToDigit c) cs

/-- Decimal value of a digit string. -/
def digitsVal (l : List Char) : Nat := valAux 0 l

/-- Number of decimal digits emitted for n. -/
def numDigits (n : Nat) : Nat :=
  if h : n < 10 then 1
  else numDigits (n / 10) + 1
termination_by n
decreasing_by exact Nat.div_lt_self (by omega) (by omega)

theorem charToDigit_digitToChar : ∀ d < 10, charToDigit (digitToChar d) = d := by decide

theorem isDigitCh_digitToChar : ∀ d < 10, isDigitCh (digitToChar d) = true := by decide

theorem natReprAux_succ (fuel n : Nat) (acc : List Char) :
    natReprAux (fuel + 1) n acc =
      if n < 10 then digitToChar n :: acc
      else natReprAux fuel (n / 10) (digitToChar (n % 10) :: acc) := rfl

theorem natReprAux_lt {fuel n : Nat} (h : n < 10) (acc : List Char) :
    natReprAux (fuel + 1) n acc = digitToChar n :: acc := by
  rw [natReprAux_succ, if_pos h]

theorem natReprAux_ge {fuel n : Nat} (h : ¬ n < 10) (acc : List Char) :
    natReprAux (fuel + 1) n acc = natReprAux fuel (n / 10) (digitToChar (n % 10) :: acc) := by
  rw [natReprAux_succ, if_neg h]

theorem numDigits_lt {n : Nat} (h : n < 10) : numDigits n = 1 := by
  rw [numDigits.eq_def, dif_pos h]

theorem numDigits_ge {n : Nat} (h : ¬ n < 10) : numDigits n = numDigits (n / 10) + 1 := by
  rw [numDigits.eq_def, dif_neg h]

theorem valAux_nil (a : Nat) : valAux a [] = a := rfl

theorem valAux_cons (a : Nat) (c : Char) (cs : List Char) :
    valAux a (c :: cs) = valAux (a * 10 + charToDigit c) cs := rfl

theorem valAux_natReprAux (fuel : Nat) : ∀ n acc a, n < fuel →
    valAux a (natReprAux fuel n acc) = valAux (a * 10 ^ numDigits n + n) acc := by
  induction fuel with
  | zero => intro n acc a h; omega
  | succ fuel ih =>
    intro n acc a _
    by_cases h : n < 10
    · rw [natReprAux_lt h, numDigits_lt h, valAux_cons, charToDigit_digitToChar n h,
        pow_one]
    · rw [natReprAux_ge h, numDigits_ge h,
        ih (n / 10) _ _ (by omega), valAux_cons,
        charToDigit_digitToChar (n % 10) (Nat.mod_lt _ (by omega))]
      congr 1
      rw [pow_succ]
      have hdm := Nat.div_add_mod n 10
      generalize (10 : Nat) ^ numDigits (n / 10) = m
      ring_nf
      omega

theorem digitsVal_natRepr (n : Nat) : digitsVal (natRepr n) = n := by
  have h := valAux_natReprAux (n + 1) n [] 0 (by omega)
  rw [natRepr, digitsVal, h, valAux_nil]
  ring

theorem natRepr_inj {m n : Nat} (h : natRepr m = natRepr n) : m = n := by
  have hm := digitsVal_natRepr m
  rw [h, digitsVal_natRepr] at hm
  omega

theorem natReprAux_all_digits (fuel : Nat) : ∀ n acc, n < fuel →
    (∀ c ∈ acc, isDigitCh c = true) → ∀ c ∈ natReprAux fuel n acc, isDigitCh c = true := by
  induction fuel with
  | zero => intro n acc h; omega
  | succ fuel ih =>
    intro n acc _ hacc c hc
    by_cases h : n < 10
    · rw [natReprAux_lt h, List.mem_cons] at hc
      rcases hc with hc | hc
      · rw [hc]; exact isDigitCh_digitToChar n h
      · exact hacc c hc
    · rw [natReprAux_ge h] at hc
      refine ih (n / 10) _ (by omega) ?_ c hc
      intro d hd
      rw [List.mem_cons] at hd
      rcases hd with hd | hd
      · rw [hd]; exact isDigitCh_digitToChar (n % 10) (Nat.mod_lt _ (by omega))
      · exact hacc d hd

theorem natRepr_all_digits (n : Nat) : ∀ c ∈ natRepr n, isDigitCh c = true :=
  natReprAux_all_digits (n + 1) n [] (by omega) (by intro c hc; cases hc)

theorem natReprAux_ne_nil (fuel : Nat) : ∀ n acc, n < fuel →
    natReprAux fuel n acc ≠ [] := by
  induction fuel with
  | zero => intro n acc h; omega
  | succ fuel ih =>
    intro n acc _
    by_cases h : n < 10
    · rw [natReprAux_lt h]; simp
    · rw [natReprAux_ge h]
      exact ih (n / 10) _ (by omega)

theorem natRepr_ne_nil (n : Nat) : natRepr n ≠ [] :=
  natReprAux_ne_nil (n + 1) n [] (by omega)

theorem natReprAux_length (fuel : Nat) : ∀ n acc, n < fuel →
    (natReprAux fuel n acc).length = numDigits n + acc.length := by
  induction fuel with
  | zero => intro n acc h; omega
  | succ fuel ih =>
    intro n acc _
    by_cases h : n < 10
    · rw [natReprAux_lt h, numDigits_lt h]
      simp
      omega
    · rw [natReprAux_ge h, numDigits_ge h, ih (n / 10) _ (by omega)]
      simp
      omega

theorem numDigits_le (k : Nat) : ∀ n, n < 10 ^ k → 1 ≤ k → numDigits n ≤ k := by
  induction k with
  | zero => intro n _ h1; omega
  | succ k ih =>
    intro n hn _
    by_cases h : n < 10
    · rw [numDigits_lt h]; omega
    · rw [numDigits_ge h]
      have hk : 1 ≤ k := by
        by_contra hk
        have hz : k = 0 := by omega
        subst hz
        simp [pow_succ] at hn
        omega
      have hdiv : n / 10 < 10 ^ k := by
        rw [Nat.div_lt_iff_lt_mul (by omega)]
        calc n < 10 ^ (k + 1) := hn
        _ = 10 ^ k * 10 := by rw [pow_succ]
      have := ih (n / 10) hdiv hk
      omega

theorem natRepr_length_le_three {n : Nat} (h : n ≤ 254) : (natRepr n).length ≤ 3 := by
  have h1 : (natRepr n).length = numDigits n := by
    have h2 := natReprAux_length (n + 1) n [] (by omega)
    simpa [natRepr] using h2
  rw [h1]
  exact numDigits_le 3 n (by omega) (by omega)

/-! ### Lowercase hexadecimal rendering, modelling Rust two-digit hex format -/

/-- One lowercase hexadecimal digit as a character (d expected below 16). -/
def hexDigitChar (d : Nat) : Char :=
  match d with
  | 0 => '0' | 1 => '1' | 2 => '2' | 3 => '3' | 4 => '4'
  | 5 => '5' | 6 => '6' | 7 => '7' | 8 => '8' | 9 => '9'
  | 10 => 'a' | 11 => 'b' | 12 => 'c' | 13 => 'd' | 14 => 'e' | _ => 'f'

/-- Numeric value of a hexadecimal digit character (lower or upper case). -/
def hexVal (c : Char) : Nat :=
  if c.toNat ≤ 57 then c.toNat - 48
  else if c.toNat ≤ 70 then c.toNat - 55
  else c.toNat - 87

/-- Is this character a hexadecimal digit (either case)? -/
def isHexCh (c : Char) : Bool :=
  (48 ≤ c.toNat && c.toNat ≤ 57) || (97 ≤ c.toNat && c.toNat ≤ 102)
    || (65 ≤ c.toNat && c.toNat ≤ 70)

/-- Two-digit lowercase hex rendering of n (n expected below 256),
modelling the zero-padded two-column hex format used for u8 values. -/
def hex02 (n : Nat) : List Char := [hexDigitChar (n / 16), hexDigitChar (n % 16)]

theorem hexVal_hexDigitChar : ∀ d < 16, hexVal (hexDigitChar d) = d := by decide

theorem isHexCh_hexDigitChar : ∀ d < 16, isHexCh (hexDigitChar d) = true := by decide

theorem hex02_inj {m n : Nat} (hm : m < 256) (hn : n < 256) (h : hex02 m = hex02 n) :
    m = n := by
  simp only [hex02, List.cons.injEq, and_true] at h
  obtain ⟨h1, h2⟩ := h
  have e1 : m / 16 = n / 16 := by
    have a := hexVal_hexDigitChar (m / 16) (by omega)
    have b := hexVal_hexDigitChar (n / 16) (by omega)
    rw [h1] at a; omega
  have e2 : m % 16 = n % 16 := by
    have a := hexVal_hexDigitChar (m % 16) (Nat.mod_lt _ (by omega))
    have b := hexVal_hexDigitChar (n % 16) (Nat.mod_lt _ (by omega))
    rw [h2] at a; omega
  omega

/-! ### Per-VM network plan derivation

Embeds the pure formatting expressions of run_vm in src/firecracker.rs:
the host address 172.16.id.1, the guest address 172.16.id.2, the guest
MAC 06:00:AC:10:xx:02 with xx the two-digit lowercase hex of id, the tap
interface name tap-inet-id, and the default VM name fc-xx. -/

/-- Characters of the host-side address of VM id. -/
def hostIpChars (id : Nat) : List Char := "172.16.".data ++ natRepr id ++ ".1".data

/-- Host-side IPv4 address string for VM id. -/
def host_ip (id : Nat) : String := String.mk (hostIpChars id)

/-- Characters of the guest-side address of VM id. -/
def guestIpChars (id : Nat) : List Char := "172.16.".data ++ natRepr id ++ ".2".data

/-- Guest-side IPv4 address string for VM id. -/
def guest_ip (id : Nat) : String := String.mk (guestIpChars id)

/-- Characters of the guest MAC address of VM id. -/
def macChars (id : Nat) : List Char := "06:00:AC:10:".data ++ hex02 id ++ ":02".data

/-- Guest MAC address string for VM id. -/
def mac_address (id : Nat) : String := String.mk (macChars id)

/-- Characters of the tap interface name of VM id. -/
def tapChars (id : Nat) : List Char := "tap-inet-".data ++ natRepr id

/-- Tap interface name string for VM id. -/
def tap_device (id : Nat) : String := String.mk (tapChars id)

/-- Characters of the default VM name derived from id. -/
def defaultNameChars (id : Nat) : List Char := "fc-".data ++ hex02 id

/-- Default VM name string for VM id. -/
def defaultName (id : Nat) : String := String.mk (defaultNameChars id)

/-! ### Syntactic validity of IPv4 and MAC strings -/

/-- Prepend a character onto the first group of a split result. -/
def consHead (c : Char) : List (List Char) → List (List Char)
  | [] => [[c]]
  | g :: gs => (c :: g) :: gs

/-- Split a character list on a separator character. -/
def splitSep (sep : Char) : List Char → List (List Char)
  | [] => [[]]
  | c :: cs => if c = sep then [] :: splitSep sep cs else consHead c (splitSep sep cs)

theorem consHead_cons (c : Char) (g : List Char) (gs : List (List Char)) :
    consHead c (g :: gs) = (c :: g) :: gs := rfl

theorem splitSep_nil (sep : Char) : splitSep sep [] = [[]] := rfl

theorem splitSep_cons (sep c : Char) (cs : List Char) :
    splitSep sep (c :: cs) =
      if c = sep then [] :: splitSep sep cs else consHead c (splitSep sep cs) := rfl

theorem splitSep_cons_of_sep (sep : Char) (cs : List Char) :
    splitSep sep (sep :: cs) = [] :: splitSep sep cs := by
  rw [splitSep_cons, if_pos rfl]

theorem splitSep_cons_of_ne {c sep : Char} (h : ¬ c = sep) (cs : List Char) :
    splitSep sep (c :: cs) = consHead c (splitSep sep cs) := by
  rw [splitSep_cons, if_neg h]

theorem splitSep_append (sep : Char) (l r : List Char) (hl : ∀ c ∈ l, ¬ c = sep) :
    splitSep sep (l ++ sep :: r) = l :: splitSep sep r := by
  induction l with
  | nil => simp [splitSep_cons_of_sep]
  | cons c cs ih =>
    have hc : ¬ c = sep := hl c (by simp)
    rw [List.cons_append, splitSep_cons_of_ne hc,
      ih (fun d hd => hl d (List.mem_cons_of_mem c hd)), consHead_cons]

/-- A valid dotted-quad octet: nonempty, all digits, at most 3 of them,
value at most 255. -/
def octOk (o : List Char) : Bool :=
  !o.isEmpty && o.all isDigitCh && decide (o.length ≤ 3) && decide (digitsVal o ≤ 255)

/-- Syntactic IPv4 validity: four dot-separated valid octets. -/
def isValidIPv4Chars (l : List Char) : Bool :=
  match splitSep '.' l with
  | [a, b, c, d] => octOk a && octOk b && octOk c && octOk d
  | _ => false

/-- A valid MAC group: exactly two hexadecimal digit characters. -/
def hexPairOk (o : List Char) : Bool :=
  match o with
  | [c1, c2] => isHexCh c1 && isHexCh c2
  | _ => false

/-- Syntactic MAC validity: six colon-separated two-hex-digit groups. -/
def isValidMacChars (l : List Char) : Bool :=
  match splitSep ':' l with
  | [a, b, c, d, e, f] =>
    hexPairOk a && hexPairOk b && hexPairOk c && hexPairOk d && hexPairOk e && hexPairOk f
  | _ => false

theorem natRepr_no_dot (n : Nat) : ∀ c ∈ natRepr n, ¬ c = '.' := by
  intro c hc he
  have hd := natRepr_all_digits n c hc
  rw [he] at hd
  simp [isDigitCh] at hd

theorem splitSep_hostIp (id : Nat) :
    splitSep '.' (hostIpChars id) = [['1', '7', '2'], ['1', '6'], natRepr id, ['1']] := by
  have key := splitSep_append '.' (natRepr id) ['1'] (natRepr_no_dot id)
  show splitSep '.'
    ('1' :: '7' :: '2' :: '.' :: '1' :: '6' :: '.' :: (natRepr id ++ '.' :: ['1'])) = _
  rw [splitSep_cons_of_ne (by decide), splitSep_cons_of_ne (by decide),
    splitSep_cons_of_ne (by decide), splitSep_cons_of_sep,
    splitSep_cons_of_ne (by decide), splitSep_cons_of_ne (by decide),
    splitSep_cons_of_sep, key]
  simp [consHead_cons, splitSep_nil, splitSep_cons_of_ne (show ¬ '1' = '.' by decide)]

theorem splitSep_guestIp (id : Nat) :
    splitSep '.' (guestIpChars id) = [['1', '7', '2'], ['1', '6'], natRepr id, ['2']] := by
  have key := splitSep_append '.' (natRepr id) ['2'] (natRepr_no_dot id)
  show splitSep '.'
    ('1' :: '7' :: '2' :: '.' :: '1' :: '6' :: '.' :: (natRepr id ++ '.' :: ['2'])) = _
  rw [splitSep_cons_of_ne (by decide), splitSep_cons_of_ne (by decide),
    splitSep_cons_of_ne (by decide), splitSep_cons_of_sep,
    splitSep_cons_of_ne (by decide), splitSep_cons_of_ne (by decide),
    splitSep_cons_of_sep, key]
  simp [consHead_cons, splitSep_nil, splitSep_cons_of_ne (show ¬ '2' = '.' by decide)]

theorem octOk_natRepr {id : Nat} (h : id ≤ 254) : octOk (natRepr id) = true := by
  rw [octOk]
  have h1 : (natRepr id).isEmpty = false := by
    rcases hne : natRepr id with _ | ⟨c, cs⟩
    · exact absurd hne (natRepr_ne_nil id)
    · rfl
  have h2 : (natRepr id).all isDigitCh = true := by
    rw [List.all_eq_true]
    exact natRepr_all_digits id
  have h3 : digitsVal (natRepr id) = id := digitsVal_natRepr id
  have h4 : (natRepr id).length ≤ 3 := natRepr_length_le_three h
  have h5 : digitsVal (natRepr id) ≤ 255 := by rw [h3]; omega
  simp [h1, h2, h4, h5]

theorem isValidIPv4_hostIp {id : Nat} (h : id ≤ 254) :
    isValidIPv4Chars (hostIpChars id) = true := by
  rw [isValidIPv4Chars, splitSep_hostIp]
  show (octOk ['1', '7', '2'] && octOk ['1', '6'] && octOk (natRepr id) && octOk ['1']) = true
  rw [octOk_natRepr h]
  decide

theorem isValidIPv4_guestIp {id : Nat} (h : id ≤ 254) :
    isValidIPv4Chars (guestIpChars id) = true := by
  rw [isValidIPv4Chars, splitSep_guestIp]
  show (octOk ['1', '7', '2'] && octOk ['1', '6'] && octOk (natRepr id) && octOk ['2']) = true
  rw [octOk_natRepr h]
  decide

theorem hex02_no_colon (n : Nat) (hn : n < 256) : ∀ c ∈ hex02 n, ¬ c = ':' := by
  intro c hc he
  have h16 : n / 16 < 16 := by omega
  have h16b : n % 16 < 16 := Nat.mod_lt _ (by omega)
  simp only [hex02, List.mem_cons, List.not_mem_nil, or_false] at hc
  rcases hc with hc | hc
  · have := isHexCh_hexDigitChar (n / 16) h16
    rw [hc] at he
    rw [he] at this
    simp [isHexCh] at this
  · have := isHexCh_hexDigitChar (n % 16) h16b
    rw [hc] at he
    rw [he] at this
    simp [isHexCh] at this

theorem splitSep_mac (id : Nat) (hid : id < 256) :
    splitSep ':' (macChars id) =
      [['0', '6'], ['0', '0'], ['A', 'C'], ['1', '0'], hex02 id, ['0', '2']] := by
  have key := splitSep_append ':' (hex02 id) ['0', '2'] (hex02_no_colon id hid)
  show splitSep ':'
    ('0' :: '6' :: ':' :: '0' :: '0' :: ':' :: 'A' :: 'C' :: ':' :: '1' :: '0' :: ':' ::
      (hex02 id ++ ':' :: ['0', '2'])) = _
  rw [splitSep_cons_of_ne (by decide), splitSep_cons_of_ne (by decide), splitSep_cons_of_sep,
    splitSep_cons_of_ne (by decide), splitSep_cons_of_ne (by decide), splitSep_cons_of_sep,
    splitSep_cons_of_ne (by decide), splitSep_cons_of_ne (by decide), splitSep_cons_of_sep,
    splitSep_cons_of_ne (by decide), splitSep_cons_of_ne (by decide), splitSep_cons_of_sep,
    key]
  simp [consHead_cons, splitSep_nil, splitSep_cons_of_ne (show ¬ '0' = ':' by decide),
    splitSep_cons_of_ne (show ¬ '2' = ':' by decide)]

theorem isValidMac_mac {id : Nat} (h : id ≤ 254) :
    isValidMacChars (macChars id) = true := by
  rw [isValidMacChars, splitSep_mac id (by omega)]
  show (hexPairOk ['0', '6'] && hexPairOk ['0', '0'] && hexPairOk ['A', 'C'] &&
    hexPairOk ['1', '0'] && hexPairOk (hex02 id) && hexPairOk ['0', '2']) = true
  have hp : hexPairOk (hex02 id) = true := by
    rw [hex02]
    show (isHexCh (hexDigitChar (id / 16)) && isHexCh (hexDigitChar (id % 16))) = true
    rw [isHexCh_hexDigitChar (id / 16) (by omega),
      isHexCh_hexDigitChar (id % 16) (Nat.mod_lt _ (by omega))]
    rfl
  rw [hp]
  decide

theorem host_ip_inj {i j : Nat} (h : host_ip i = host_ip j) : i = j := by
  have hd : hostIpChars i = hostIpChars j := congrArg String.data h
  rw [hostIpChars, hostIpChars, List.append_assoc, List.append_assoc] at hd
  have h1 := List.append_cancel_left hd
  have h2 := List.append_cancel_right h1
  exact natRepr_inj h2

theorem guest_ip_inj {i j : Nat} (h : guest_ip i = guest_ip j) : i = j := by
  have hd : guestIpChars i = guestIpChars j := congrArg String.data h
  rw [guestIpChars, guestIpChars, List.append_assoc, List.append_assoc] at hd
  have h1 := List.append_cancel_left hd
  have h2 := List.append_cancel_right h1
  exact natRepr_inj h2

theorem mac_address_inj {i j : Nat} (hi : i < 256) (hj : j < 256)
    (h : mac_address i = mac_address j) : i = j := by
  have hd : macChars i = macChars j := congrArg String.data h
  rw [macChars, macChars, List.append_assoc, List.append_assoc] at hd
  have h1 := List.append_cancel_left hd
  have h2 := List.append_cancel_right h1
  exact hex02_inj hi hj h2

theorem tap_device_inj {i j : Nat} (h : tap_device i = tap_device j) : i = j := by
  have hd : tapChars i = tapChars j := congrArg String.data h
  rw [tapChars, tapChars] at hd
  have h1 := List.append_cancel_left hd
  exact natRepr_inj h1

/-! ### The persisted VM record

Embeds struct InstanceMetadata of src/firecracker.rs. Strings are lists
of characters; id is a u8 (below 256) and pid a u32 (below 2^32), the
bounds being enforced by the JSON decoder exactly as serde enforces the
integer widths when deserialising. -/

structure InstanceMetadata where
  id : Nat
  name : List Char
  mode : List Char
  guest_ip : List Char
  host_ip : List Char
  mac_address : List Char
  tap_device : List Char
  pid : Nat
deriving DecidableEq

/-! ### JSON serialisation of the record

Embeds the behaviour of serde_json to_string / from_str on
InstanceMetadata: a canonical object with the fields in declaration
order, strings escaped with the serde_json escape table (quote,
backslash, the five short control escapes, and u-hex escapes for the
remaining control characters). The decoder accepts exactly the canonical
grammar the encoder emits, which is the fragment of the serde parser
exercised by the round-trip. -/

/-- Escape one character as serde_json does inside a JSON string. -/
def escapeChar (c : Char) : List Char :=
  if c = '"' then ['\\', '"']
  else if c = '\\' then ['\\', '\\']
  else if c = '\x08' then ['\\', 'b']
  else if c = '\x09' then ['\\', 't']
  else if c = '\x0a' then ['\\', 'n']
  else if c = '\x0c' then ['\\', 'f']
  else if c = '\x0d' then ['\\', 'r']
  else if c.toNat < 32 then
    ['\\', 'u', '0', '0', hexDigitChar (c.toNat / 16), hexDigitChar (c.toNat % 16)]
  else [c]

/-- Escape a whole string as serde_json does. -/
def escape : List Char → List Char
  | [] => []
  | c :: cs => escapeChar c ++ escape cs

theorem escape_nil : escape [] = [] := rfl

theorem escape_cons (c : Char) (cs : List Char) :
    escape (c :: cs) = escapeChar c ++ escape cs := rfl

/-- Decode one short escape character, as the JSON string grammar reads
a backslash followed by a single letter. -/
def unescapeChar (e : Char) : Option Char :=
  if e = '"' then some '"'
  else if e = '\\' then some '\\'
  else if e = '/' then some '/'
  else if e = 'b' then some '\x08'
  else if e = 'f' then some '\x0c'
  else if e = 'n' then some '\x0a'
  else if e = 'r' then some '\x0d'
  else if e = 't' then some '\x09'
  else none

/-- Parse the body of a JSON string up to and including the closing
quote, returning the decoded string and the remaining input. -/
def parseStringBody : List Char → Option (List Char × List Char)
  | [] => none
  | c :: cs =>
    if c = '"' then some ([], cs)
    else if c = '\\' then
      match cs with
      | [] => none
      | e :: cs1 =>
        if e = 'u' then
          match cs1 with
          | h1 :: h2 :: h3 :: h4 :: cs2 =>
            if isHexCh h1 && isHexCh h2 && isHexCh h3 && isHexCh h4 then
              Option.map
                (fun p => (Char.ofNat (((hexVal h1 * 16 + hexVal h2) * 16 + hexVal h3) * 16
                  + hexVal h4) :: p.1, p.2))
                (parseStringBody cs2)
            else none
          | _ => none
        else
          match unescapeChar e with
          | some u => Option.map (fun p => (u :: p.1, p.2)) (parseStringBody cs1)
          | none => none
    else
      Option.map (fun p => (c :: p.1, p.2)) (parseStringBody cs)

/-- Parse a nonempty run of decimal digits, returning its value and the
remaining input. -/
def parseNatTok (l : List Char) : Option (Nat × List Char) :=
  if (l.takeWhile isDigitCh).isEmpty then none
  else some (digitsVal (l.takeWhile isDigitCh), l.dropWhile isDigitCh)

/-- Consume an expected literal prefix from the input. -/
def expectLit : List Char → List Char → Option (List Char)
  | [], r => some r
  | _ :: _, [] => none
  | c :: cs, d :: ds => if c = d then expectLit cs ds else none

theorem expectLit_nil (r : List Char) : expectLit [] r = some r := rfl

theorem expectLit_cons (c d : Char) (cs ds : List Char) :
    expectLit (c :: cs) (d :: ds) = if c = d then expectLit cs ds else none := rfl

theorem expectLit_append (p r : List Char) : expectLit p (p ++ r) = some r := by
  induction p with
  | nil => rfl
  | cons c cs ih => rw [List.cons_append, expectLit_cons, if_pos rfl, ih]

/-- Serialise a record as serde_json to_string does: canonical field
order, no whitespace (each string field is followed by its closing
quote, written as a cons). -/
def encodeMeta (m : InstanceMetadata) : List Char :=
  "\x7b\"id\":".data ++ (natRepr m.id ++ (",\"name\":\"".data ++ (escape m.name ++
    ('"' :: ",\"mode\":\"".data ++ (escape m.mode ++
    ('"' :: ",\"guest_ip\":\"".data ++ (escape m.guest_ip ++
    ('"' :: ",\"host_ip\":\"".data ++ (escape m.host_ip ++
    ('"' :: ",\"mac_address\":\"".data ++ (escape m.mac_address ++
    ('"' :: ",\"tap_device\":\"".data ++ (escape m.tap_device ++
    ('"' :: ",\"pid\":".data ++ (natRepr m.pid ++ '\x7d' :: [])))))))))))))))

/-- Tail stage of the record parser: the pid field and the closing
brace, with the u32 bound serde enforces on pid. -/
def decodeMetaC (idv : Nat) (namev modev guestv hostv macv tapv : List Char)
    (l : List Char) : Option InstanceMetadata := do
  let r8 ← expectLit ",\"pid\":".data l
  let pidr ← parseNatTok r8
  if 4294967296 ≤ pidr.1 then none else do
  let r9 ← expectLit "\x7d".data pidr.2
  if r9.isEmpty then some ⟨idv, namev, modev, guestv, hostv, macv, tapv, pidr.1⟩ else none

/-- Middle stage of the record parser: the host_ip, mac_address and
tap_device string fields. -/
def decodeMetaB (idv : Nat) (namev modev guestv : List Char) (l : List Char) :
    Option InstanceMetadata := do
  let r5 ← expectLit ",\"host_ip\":\"".data l
  let hostr ← parseStringBody r5
  let r6 ← expectLit ",\"mac_address\":\"".data hostr.2
  let macr ← parseStringBody r6
  let r7 ← expectLit ",\"tap_device\":\"".data macr.2
  let tapr ← parseStringBody r7
  decodeMetaC idv namev modev guestv hostr.1 macr.1 tapr.1 tapr.2

/-- Parse a record from the canonical JSON form, enforcing the u8 bound
on id and the u32 bound on pid as serde does; any other input shape is
rejected, as a read of a corrupt state file is. -/
def decodeMeta (l : List Char) : Option InstanceMetadata := do
  let r1 ← expectLit "\x7b\"id\":".data l
  let idr ← parseNatTok r1
  if 256 ≤ idr.1 then none else do
  let r2 ← expectLit ",\"name\":\"".data idr.2
  let namer ← parseStringBody r2
  let r3 ← expectLit ",\"mode\":\"".data namer.2
  let moder ← parseStringBody r3
  let r4 ← expectLit ",\"guest_ip\":\"".data moder.2
  let guestr ← parseStringBody r4
  decodeMetaB idr.1 namer.1 moder.1 guestr.1 guestr.2

/-! ### Round trip of the JSON serialisation -/

theorem psb_close (r : List Char) : parseStringBody ('"' :: r) = some ([], r) := by
  conv_lhs => rw [parseStringBody.eq_def]
  simp

theorem psb_quote (r : List Char) : parseStringBody ('\\' :: '"' :: r) =
    Option.map (fun p => ('"' :: p.1, p.2)) (parseStringBody r) := by
  conv_lhs => rw [parseStringBody.eq_def]
  simp [unescapeChar]

theorem psb_bs (r : List Char) : parseStringBody ('\\' :: '\\' :: r) =
    Option.map (fun p => ('\\' :: p.1, p.2)) (parseStringBody r) := by
  conv_lhs => rw [parseStringBody.eq_def]
  simp [unescapeChar]

theorem psb_b (r : List Char) : parseStringBody ('\\' :: 'b' :: r) =
    Option.map (fun p => ('\x08' :: p.1, p.2)) (parseStringBody r) := by
  conv_lhs => rw [parseStringBody.eq_def]
  simp [unescapeChar]

theorem psb_t (r : List Char) : parseStringBody ('\\' :: 't' :: r) =
    Option.map (fun p => ('\x09' :: p.1, p.2)) (parseStringBody r) := by
  conv_lhs => rw [parseStringBody.eq_def]
  simp [unescapeChar]

theorem psb_n (r : List Char) : parseStringBody ('\\' :: 'n' :: r) =
    Option.map (fun p => ('\x0a' :: p.1, p.2)) (parseStringBody r) := by
  conv_lhs => rw [parseStringBody.eq_def]
  simp [unescapeChar]

theorem psb_f (r : List Char) : parseStringBody ('\\' :: 'f' :: r) =
    Option.map (fun p => ('\x0c' :: p.1, p.2)) (parseStringBody r) := by
  conv_lhs => rw [parseStringBody.eq_def]
  simp [unescapeChar]

theorem psb_r (r : List Char) : parseStringBody ('\\' :: 'r' :: r) =
    Option.map (fun p => ('\x0d' :: p.1, p.2)) (parseStringBody r) := by
  conv_lhs => rw [parseStringBody.eq_def]
  simp [unescapeChar]

theorem psb_u (h3c h4c : Char) (r : List Char) (hh3 : isHexCh h3c = true)
    (hh4 : isHexCh h4c = true) :
    parseStringBody ('\\' :: 'u' :: '0' :: '0' :: h3c :: h4c :: r) =
      Option.map (fun p => (Char.ofNat (((hexVal '0' * 16 + hexVal '0') * 16 + hexVal h3c) * 16
        + hexVal h4c) :: p.1, p.2)) (parseStringBody r) := by
  conv_lhs => rw [parseStringBody.eq_def]
  simp [hh3, hh4, (by decide : isHexCh '0' = true)]

theorem psb_ord {c : Char} (h1 : ¬ c = '"') (h2 : ¬ c = '\\') (t : List Char) :
    parseStringBody (c :: t) =
      Option.map (fun p => (c :: p.1, p.2)) (parseStringBody t) := by
  conv_lhs => rw [parseStringBody.eq_def]
  simp only [h1, h2, if_false]

theorem parseStringBody_escape (s r : List Char) :
    parseStringBody (escape s ++ '"' :: r) = some (s, r) := by
  induction s with
  | nil => rw [escape_nil, List.nil_append, psb_close]
  | cons c cs ih =>
    rw [escape_cons, List.append_assoc]
    by_cases h1 : c = '"'
    · subst h1
      rw [show escapeChar '"' = ['\\', '"'] from rfl]
      simp only [List.cons_append, List.nil_append]
      rw [psb_quote, ih]
      rfl
    by_cases h2 : c = '\\'
    · subst h2
      rw [show escapeChar '\\' = ['\\', '\\'] from rfl]
      simp only [List.cons_append, List.nil_append]
      rw [psb_bs, ih]
      rfl
    by_cases h3 : c = '\x08'
    · subst h3
      rw [show escapeChar '\x08' = ['\\', 'b'] from rfl]
      simp only [List.cons_append, List.nil_append]
      rw [psb_b, ih]
      rfl
    by_cases h4 : c = '\x09'
    · subst h4
      rw [show escapeChar '\x09' = ['\\', 't'] from rfl]
      simp only [List.cons_append, List.nil_append]
      rw [psb_t, ih]
      rfl
    by_cases h5 : c = '\x0a'
    · subst h5
      rw [show escapeChar '\x0a' = ['\\', 'n'] from rfl]
      simp only [List.cons_append, List.nil_append]
      rw [psb_n, ih]
      rfl
    by_cases h6 : c = '\x0c'
    · subst h6
      rw [show escapeChar '\x0c' = ['\\', 'f'] from rfl]
      simp only [List.cons_append, List.nil_append]
      rw [psb_f, ih]
      rfl
    by_cases h7 : c = '\x0d'
    · subst h7
      rw [show escapeChar '\x0d' = ['\\', 'r'] from rfl]
      simp only [List.cons_append, List.nil_append]
      rw [psb_r, ih]
      rfl
    by_cases h8 : c.toNat < 32
    · have he : escapeChar c =
          ['\\', 'u', '0', '0', hexDigitChar (c.toNat / 16), hexDigitChar (c.toNat % 16)] := by
        simp only [escapeChar]
        rw [if_neg h1, if_neg h2, if_neg h3, if_neg h4, if_neg h5, if_neg h6, if_neg h7,
          if_pos h8]
      rw [he]
      simp only [List.cons_append, List.nil_append]
      rw [psb_u _ _ _ (isHexCh_hexDigitChar _ (by omega)) (isHexCh_hexDigitChar _ (by omega)),
        ih]
      have hv : ((hexVal '0' * 16 + hexVal '0') * 16 + hexVal (hexDigitChar (c.toNat / 16)))
          * 16 + hexVal (hexDigitChar (c.toNat % 16)) = c.toNat := by
        rw [hexVal_hexDigitChar _ (by omega), hexVal_hexDigitChar _ (by omega),
          (by decide : hexVal '0' = 0)]
        omega
      rw [hv, Char.ofNat_toNat]
      rfl
    · have he : escapeChar c = [c] := by
        simp only [escapeChar]
        rw [if_neg h1, if_neg h2, if_neg h3, if_neg h4, if_neg h5, if_neg h6, if_neg h7,
          if_neg h8]
      rw [he]
      simp only [List.cons_append, List.nil_append]
      rw [psb_ord h1 h2, ih]
      rfl

theorem takeWhile_append_all {α : Type} (p : α → Bool) (l r : List α)
    (h : ∀ c ∈ l, p c = true) : (l ++ r).takeWhile p = l ++ r.takeWhile p := by
  induction l with
  | nil => simp
  | cons c cs ih =>
    rw [List.cons_append, List.takeWhile_cons_of_pos (h c (by simp)), List.cons_append,
      ih (fun d hd => h d (List.mem_cons_of_mem c hd))]

theorem dropWhile_append_all {α : Type} (p : α → Bool) (l r : List α)
    (h : ∀ c ∈ l, p c = true) : (l ++ r).dropWhile p = r.dropWhile p := by
  induction l with
  | nil => simp
  | cons c cs ih =>
    rw [List.cons_append, List.dropWhile_cons_of_pos (h c (by simp)),
      ih (fun d hd => h d (List.mem_cons_of_mem c hd))]

theorem natRepr_isEmpty (n : Nat) : (natRepr n).isEmpty = false := by
  rcases hne : natRepr n with _ | ⟨c, cs⟩
  · exact absurd hne (natRepr_ne_nil n)
  · rfl

theorem parseNatTok_natRepr (n : Nat) (c : Char) (r : List Char)
    (hc : isDigitCh c = false) :
    parseNatTok (natRepr n ++ c :: r) = some (n, c :: r) := by
  have ht : (natRepr n ++ c :: r).takeWhile isDigitCh = natRepr n := by
    rw [takeWhile_append_all _ _ _ (natRepr_all_digits n),
      List.takeWhile_cons_of_neg (by rw [hc]; exact Bool.false_ne_true), List.append_nil]
  have hd : (natRepr n ++ c :: r).dropWhile isDigitCh = c :: r := by
    rw [dropWhile_append_all _ _ _ (natRepr_all_digits n),
      List.dropWhile_cons_of_neg (by rw [hc]; exact Bool.false_ne_true)]
  rw [parseNatTok, ht, hd, digitsVal_natRepr, natRepr_isEmpty]
  rfl

theorem expectLit_self (p : List Char) : expectLit p p = some [] := by
  have h := expectLit_append p []
  rwa [List.append_nil] at h

theorem parseNatTok_id (n : Nat) (r : List Char) :
    parseNatTok (natRepr n ++ (",\"name\":\"".data ++ r)) =
      some (n, ",\"name\":\"".data ++ r) :=
  parseNatTok_natRepr n ',' ("\"name\":\"".data ++ r) (by decide)

theorem psb_before_mode (s r : List Char) :
    parseStringBody (escape s ++ ('"' :: ",\"mode\":\"".data ++ r)) =
      some (s, ",\"mode\":\"".data ++ r) :=
  parseStringBody_escape s (",\"mode\":\"".data ++ r)

theorem psb_before_guest (s r : List Char) :
    parseStringBody (escape s ++ ('"' :: ",\"guest_ip\":\"".data ++ r)) =
      some (s, ",\"guest_ip\":\"".data ++ r) :=
  parseStringBody_escape s (",\"guest_ip\":\"".data ++ r)

theorem psb_before_host (s r : List Char) :
    parseStringBody (escape s ++ ('"' :: ",\"host_ip\":\"".data ++ r)) =
      some (s, ",\"host_ip\":\"".data ++ r) :=
  parseStringBody_escape s (",\"host_ip\":\"".data ++ r)

theorem psb_before_mac (s r : List Char) :
    parseStringBody (escape s ++ ('"' :: ",\"mac_address\":\"".data ++ r)) =
      some (s, ",\"mac_address\":\"".data ++ r) :=
  parseStringBody_escape s (",\"mac_address\":\"".data ++ r)

theorem psb_before_tap (s r : List Char) :
    parseStringBody (escape s ++ ('"' :: ",\"tap_device\":\"".data ++ r)) =
      some (s, ",\"tap_device\":\"".data ++ r) :=
  parseStringBody_escape s (",\"tap_device\":\"".data ++ r)

theorem psb_before_pid (s r : List Char) :
    parseStringBody (escape s ++ ('"' :: ",\"pid\":".data ++ r)) =
      some (s, ",\"pid\":".data ++ r) :=
  parseStringBody_escape s (",\"pid\":".data ++ r)

theorem parseNatTok_pid (n : Nat) :
    parseNatTok (natRepr n ++ '\x7d' :: []) = some (n, '\x7d' :: []) :=
  parseNatTok_natRepr n '\x7d' [] (by decide)

theorem expectLit_rbrace : expectLit "\x7d".data ('\x7d' :: []) = some [] :=
  expectLit_self "\x7d".data

theorem decodeMetaC_spec (idv : Nat) (namev modev guestv hostv macv tapv : List Char)
    (pidv : Nat) (hpid : pidv < 4294967296) :
    decodeMetaC idv namev modev guestv hostv macv tapv
      (",\"pid\":".data ++ (natRepr pidv ++ '\x7d' :: [])) =
      some ⟨idv, namev, modev, guestv, hostv, macv, tapv, pidv⟩ := by
  rw [decodeMetaC, expectLit_append]
  simp only [Option.bind_eq_bind, Option.some_bind]
  rw [parseNatTok_pid]
  simp only [Option.some_bind]
  rw [if_neg (by omega : ¬ 4294967296 ≤ pidv)]
  rw [expectLit_rbrace]
  simp only [Option.some_bind]
  rfl

theorem decodeMetaB_spec (idv : Nat) (namev modev guestv hostv macv tapv : List Char)
    (pidv : Nat) (hpid : pidv < 4294967296) :
    decodeMetaB idv namev modev guestv
      (",\"host_ip\":\"".data ++ (escape hostv ++ ('"' :: ",\"mac_address\":\"".data ++
        (escape macv ++ ('"' :: ",\"tap_device\":\"".data ++
          (escape tapv ++ ('"' :: ",\"pid\":".data ++ (natRepr pidv ++ '\x7d' :: [])))))))) =
      some ⟨idv, namev, modev, guestv, hostv, macv, tapv, pidv⟩ := by
  rw [decodeMetaB, expectLit_append]
  simp only [Option.bind_eq_bind, Option.some_bind]
  rw [psb_before_mac]
  simp only [Option.some_bind]
  rw [expectLit_append]
  simp only [Option.some_bind]
  rw [psb_before_tap]
  simp only [Option.some_bind]
  rw [expectLit_append]
  simp only [Option.some_bind]
  rw [psb_before_pid]
  simp only [Option.some_bind]
  exact decodeMetaC_spec idv namev modev guestv hostv macv tapv pidv hpid

theorem decodeMeta_encodeMeta (m : InstanceMetadata) (hid : m.id < 256)
    (hpid : m.pid < 4294967296) : decodeMeta (encodeMeta m) = some m := by
  obtain ⟨idv, namev, modev, guestv, hostv, macv, tapv, pidv⟩ := m
  have hid2 : idv < 256 := hid
  have hpid2 : pidv < 4294967296 := hpid
  rw [encodeMeta, decodeMeta]
  rw [expectLit_append]
  simp only [Option.bind_eq_bind, Option.some_bind]
  rw [parseNatTok_id]
  simp only [Option.some_bind]
  rw [if_neg (by omega : ¬ 256 ≤ idv)]
  rw [expectLit_append]
  simp only [Option.some_bind]
  rw [psb_before_mode]
  simp only [Option.some_bind]
  rw [expectLit_append]
  simp only [Option.some_bind]
  rw [psb_before_guest]
  simp only [Option.some_bind]
  rw [expectLit_append]
  simp only [Option.some_bind]
  rw [psb_before_host]
  simp only [Option.some_bind]
  exact decodeMetaB_spec idv namev modev guestv hostv macv tapv pidv hpid2

/-! ### The persisted state directory

The program keeps all its mutable files directly under /tmp; the store
is modelled as an association list from file names (relative to /tmp)
to file contents.  Writing replaces any previous entry for the name,
removing is best-effort (absent names are a no-op), exactly as
std fs write / remove_file behave for the paths the program uses. -/

abbrev Files := List (List Char × List Char)

/-- Read a file: the content of the first (only) entry with this name. -/
def lookupFile (fs : Files) (p : List Char) : Option (List Char) :=
  (fs.find? (fun e => e.1 == p)).map (fun e => e.2)

/-- Write a file, replacing any previous content. -/
def writeFile (fs : Files) (p c : List Char) : Files :=
  (p, c) :: fs.filter (fun e => !(e.1 == p))

/-- Remove a file if present; a no-op otherwise. -/
def removeFile (fs : Files) (p : List Char) : Files :=
  fs.filter (fun e => !(e.1 == p))

/-- The state record file name for a VM name: stoker-name.json. -/
def stokerFile (n : List Char) : List Char := "stoker-".data ++ (n ++ ".json".data)

/-- The control socket file name: firecracker-name.socket. -/
def socketFile (n : List Char) : List Char := "firecracker-".data ++ (n ++ ".socket".data)

/-- The hypervisor log file name: firecracker-name.log. -/
def logFile (n : List Char) : List Char := "firecracker-".data ++ (n ++ ".log".data)

/-- The per-VM root filesystem copy name: rootfs-name.ext4. -/
def rootfsFile (n : List Char) : List Char := "rootfs-".data ++ (n ++ ".ext4".data)

theorem lookupFile_nil (p : List Char) : lookupFile [] p = none := rfl

theorem lookupFile_cons (e : List Char × List Char) (es : Files) (p : List Char) :
    lookupFile (e :: es) p = if e.1 == p then some e.2 else lookupFile es p := by
  by_cases h : (e.1 == p) = true
  · simp [lookupFile, List.find?_cons_of_pos, h]
  · rw [Bool.not_eq_true] at h
    simp [lookupFile, List.find?_cons_of_neg, h]

theorem removeFile_cons (e : List Char × List Char) (es : Files) (p : List Char) :
    removeFile (e :: es) p =
      if e.1 == p then removeFile es p else e :: removeFile es p := by
  by_cases h : (e.1 == p) = true
  · simp [removeFile, List.filter_cons, h]
  · rw [Bool.not_eq_true] at h
    simp [removeFile, List.filter_cons, h]

theorem lookupFile_writeFile_self (fs : Files) (p c : List Char) :
    lookupFile (writeFile fs p c) p = some c := by
  rw [writeFile]
  show lookupFile ((p, c) :: removeFile fs p) p = some c
  rw [lookupFile_cons]
  simp

theorem lookupFile_removeFile_self (fs : Files) (p : List Char) :
    lookupFile (removeFile fs p) p = none := by
  induction fs with
  | nil => rfl
  | cons e es ih =>
    rw [removeFile_cons]
    by_cases h : (e.1 == p) = true
    · rw [if_pos h]; exact ih
    · rw [Bool.not_eq_true] at h
      rw [if_neg (by simp [h]), lookupFile_cons, h, if_neg (by simp)]
      exact ih

theorem lookupFile_removeFile_ne (fs : Files) {p q : List Char} (h : ¬ q = p) :
    lookupFile (removeFile fs p) q = lookupFile fs q := by
  induction fs with
  | nil => rfl
  | cons e es ih =>
    rw [removeFile_cons, lookupFile_cons]
    by_cases he : (e.1 == p) = true
    · have hq : (e.1 == q) = false := by
        rw [beq_iff_eq] at he
        simp only [beq_eq_false_iff_ne, ne_eq, he]
        exact fun hh => h hh.symm
      rw [if_pos he, hq, if_neg (by simp)]
      exact ih
    · rw [Bool.not_eq_true] at he
      rw [if_neg (by simp [he]), lookupFile_cons]
      by_cases hq : (e.1 == q) = true
      · rw [if_pos hq, if_pos hq]
      · rw [Bool.not_eq_true] at hq
        rw [hq, if_neg (by simp), if_neg (by simp)]
        exact ih

theorem lookupFile_writeFile_ne (fs : Files) {p q : List Char} (h : ¬ q = p)
    (c : List Char) : lookupFile (writeFile fs p c) q = lookupFile fs q := by
  rw [writeFile]
  show lookupFile ((p, c) :: removeFile fs p) q = _
  rw [lookupFile_cons]
  have hq : (p == q) = false := by
    simp only [beq_eq_false_iff_ne, ne_eq]
    exact fun hh => h hh.symm
  rw [show ((p, c).1 == q) = false from hq, if_neg (by simp)]
  exact lookupFile_removeFile_ne fs h

theorem lookupFile_removeFile_none (fs : Files) (p q : List Char)
    (h : lookupFile fs q = none) : lookupFile (removeFile fs p) q = none := by
  by_cases hqp : q = p
  · rw [hqp]; exact lookupFile_removeFile_self fs p
  · rw [lookupFile_removeFile_ne fs hqp]; exact h

/-! ### The VM registry: id allocation and record persistence

Embeds allocate_vm_id, the record save at the end of run_vm, and the
record load at the start of rm_vm (src/firecracker.rs). -/

/-- Error outcomes of the orchestration flows, mirroring the anyhow
bail and error-propagation sites of the source. -/
inductive Err where
  | exhausted
  | notFound
  | parseError
  | apiError (status : Nat) (body : List Char)
  | netlinkError
  | spawnError
  | assetMissing
  | copyError
  | guestError
deriving DecidableEq

/-- Does a /tmp entry name look like a persisted VM record, as the scan
in allocate_vm_id and list_vms tests with starts_with / ends_with? -/
def isStokerJson (p : List Char) : Bool :=
  "stoker-".data.isPrefixOf p && ".json".data.isSuffixOf p

/-- The ids of all parseable VM records in the store; a file whose
content fails to parse contributes nothing, exactly as the nested
if-let-Ok reads in allocate_vm_id skip it. -/
def usedIds (fs : Files) : List Nat :=
  fs.foldr
    (fun e acc =>
      if isStokerJson e.1 then
        match decodeMeta e.2 with
        | some m => m.id :: acc
        | none => acc
      else acc)
    []

/-- Allocate the lowest id in [0,254] not used by any persisted record;
fail when all 255 are in use (the for-loop over 0..=254 in
allocate_vm_id followed by the bail). -/
def allocate_vm_id (fs : Files) : Except Err Nat :=
  match (List.range 255).find? (fun i => !((usedIds fs).contains i)) with
  | some i => Except.ok i
  | none => Except.error Err.exhausted

/-- Persist a record, as the end of run_vm serialises and writes it. -/
def saveMeta (m : InstanceMetadata) (fs : Files) : Files :=
  writeFile fs (stokerFile m.name) (encodeMeta m)

/-- Load a record by VM name, as the start of rm_vm checks existence
then reads and parses the file. -/
def loadMeta (n : List Char) (fs : Files) : Option InstanceMetadata :=
  match lookupFile fs (stokerFile n) with
  | none => none
  | some c => decodeMeta c

theorem usedIds_cons (p c : List Char) (fs : Files) :
    usedIds ((p, c) :: fs) =
      if isStokerJson p then
        match decodeMeta c with
        | some m => m.id :: usedIds fs
        | none => usedIds fs
      else usedIds fs := rfl

theorem loadMeta_saveMeta (m : InstanceMetadata) (fs : Files) (hid : m.id < 256)
    (hpid : m.pid < 4294967296) : loadMeta m.name (saveMeta m fs) = some m := by
  rw [loadMeta, saveMeta, lookupFile_writeFile_self]
  exact decodeMeta_encodeMeta m hid hpid

/-! ### System state and effect environments for the run and rm flows

The world visible to the orchestrator: the /tmp file store, the set of
existing network interfaces, the hypervisor processes spawned, and the
processes successfully killed.  Outcomes of external effects that the
program only observes (whether a kill or netlink call succeeds, what
an HTTP request returns) are supplied by an environment record. -/

structure SysState where
  files : Files
  links : List (List Char)
  spawned : List Nat
  killed : List Nat
deriving DecidableEq

/-- Effect outcomes for the removal flow: whether the netlink
connection opens, whether a link delete succeeds, and whether the
SIGKILL of the recorded pid returns 0. -/
structure RmEnv where
  connOk : Bool
  delOk : Bool
  killOk : Bool
deriving DecidableEq

/-- Embeds teardown_vm_tap of src/network.rs: open a netlink
connection (propagating failure), look the interface up by name (the
if-let-Ok-Some treats a lookup error and an absent link alike: skip
with a notice), delete it when found (propagating a delete failure),
succeed otherwise. -/
def teardown_vm_tap (env : RmEnv) (tap : List Char) (st : SysState) :
    Except Err Unit × SysState :=
  if !env.connOk then (Except.error Err.netlinkError, st)
  else if st.links.contains tap then
    if env.delOk then (Except.ok (), { st with links := st.links.erase tap })
    else (Except.error Err.netlinkError, st)
  else (Except.ok (), st)

/-- Embeds rm_vm of src/firecracker.rs: bail with not-found when no
record file exists; read and parse it (a parse failure propagates);
SIGKILL the recorded pid, only logging on failure; tear the tap down,
propagating its failure; then remove the record, socket, log and
rootfs files, ignoring individual removal failures. -/
def rm_vm (env : RmEnv) (n : List Char) (st : SysState) :
    Except Err Unit × SysState :=
  match lookupFile st.files (stokerFile n) with
  | none => (Except.error Err.notFound, st)
  | some content =>
    match decodeMeta content with
    | none => (Except.error Err.parseError, st)
    | some meta =>
      let st1 := if env.killOk then { st with killed := meta.pid :: st.killed } else st
      match teardown_vm_tap env meta.tap_device st1 with
      | (Except.error e, st2) => (Except.error e, st2)
      | (Except.ok _, st2) =>
        let fs1 := removeFile st2.files (stokerFile n)
        let fs2 := removeFile fs1 (socketFile n)
        let fs3 := removeFile fs2 (logFile n)
        let fs4 := removeFile fs3 (rootfsFile n)
        (Except.ok (), { st2 with files := fs4 })

/-- Effect outcomes for the run flow: whether the network setup and
the process spawn succeed, the pid of the spawned hypervisor, the HTTP
status and body each control-channel path answers with, whether the
rootfs image asset exists and its copy succeeds, and whether the guest
network bootstrap succeeds. -/
structure RunEnv where
  tapOk : Bool
  spawnOk : Bool
  spawnPid : Nat
  resp : String → Nat × List Char
  imageExists : Bool
  copyOk : Bool
  guestOk : Bool

/-- Embeds hyper StatusCode is_success: any 2xx status. -/
def is_success (s : Nat) : Bool := 200 ≤ s && s ≤ 299

/-- Embeds send_request of src/firecracker.rs: a PUT whose non-success
response status aborts with the status and the response body. -/
def send_request (env : RunEnv) (path : String) : Except Err Unit :=
  if is_success (env.resp path).1 then Except.ok ()
  else Except.error (Err.apiError (env.resp path).1 (env.resp path).2)

/-- Tail of run_vm from the first control-channel call on: the five
sequential PUT requests in source order, the rootfs existence check
and copy before the drive call, the guest network bootstrap after the
start action, and finally the record write.  No failure path kills the
spawned process or tears the interface down. -/
def run_vmApi (env : RunEnv) (id : Nat) (name mode : List Char) (st : SysState) :
    Except Err Unit × SysState :=
  match send_request env "/logger" with
  | Except.error e => (Except.error e, st)
  | Except.ok _ =>
  match send_request env "/boot-source" with
  | Except.error e => (Except.error e, st)
  | Except.ok _ =>
  if !env.imageExists then (Except.error Err.assetMissing, st) else
  if !env.copyOk then (Except.error Err.copyError, st) else
  let st4 := { st with files := writeFile st.files (rootfsFile name) [] }
  match send_request env "/drives/rootfs" with
  | Except.error e => (Except.error e, st4)
  | Except.ok _ =>
  match send_request env "/network-interfaces/net1" with
  | Except.error e => (Except.error e, st4)
  | Except.ok _ =>
  match send_request env "/actions" with
  | Except.error e => (Except.error e, st4)
  | Except.ok _ =>
  if !env.guestOk then (Except.error Err.guestError, st4) else
  let meta : InstanceMetadata :=
    ⟨id, name, mode, guestIpChars id, hostIpChars id, macChars id, tapChars id, env.spawnPid⟩
  (Except.ok (), { st4 with files := writeFile st4.files (stokerFile name) (encodeMeta meta) })

/-- Embeds run_vm of src/firecracker.rs up to the control-channel
sequence: allocate an id, derive the name and the network plan, set
the tap up (setup_vm_tap, aborting on failure), create the log file
and clear a stale socket (results ignored), spawn the hypervisor
(aborting on failure), then hand over to the API sequence. -/
def run_vm (env : RunEnv) (mode : List Char) (name_opt : Option (List Char))
    (st : SysState) : Except Err Unit × SysState :=
  match allocate_vm_id st.files with
  | Except.error e => (Except.error e, st)
  | Except.ok id =>
    let name := name_opt.getD (defaultNameChars id)
    if !env.tapOk then (Except.error Err.netlinkError, st) else
    let st1 := { st with links := tapChars id :: st.links }
    let st2 := { st1 with
      files := removeFile (writeFile st1.files (logFile name) []) (socketFile name) }
    if !env.spawnOk then (Except.error Err.spawnError, st2) else
    let st3 := { st2 with spawned := env.spawnPid :: st2.spawned }
    run_vmApi env id name mode st3

/-! ### First-free characterisation of the allocation scan -/

theorem find?_range' (p : Nat → Bool) : ∀ k m i,
    ((List.range' m k).find? p = some i ↔
      (m ≤ i ∧ i < m + k ∧ p i = true ∧ ∀ j, m ≤ j → j < i → p j = false)) := by
  intro k
  induction k with
  | zero =>
    intro m i
    constructor
    · intro h; cases h
    · rintro ⟨h1, h2, h3, h4⟩; omega
  | succ k ih =>
    intro m i
    rw [List.range'_succ]
    by_cases hp : p m = true
    · rw [List.find?_cons_of_pos _ hp]
      constructor
      · intro h
        injection h with h
        subst h
        exact ⟨Nat.le_refl _, by omega, hp, fun j hj1 hj2 => by omega⟩
      · rintro ⟨h1, h2, h3, h4⟩
        have hi : i = m := by
          by_contra hne
          have hf : p m = false := h4 m (Nat.le_refl _) (by omega)
          rw [hp] at hf
          cases hf
        rw [hi]
    · have hp2 : p m = false := by rw [Bool.not_eq_true] at hp; exact hp
      rw [List.find?_cons_of_neg _ hp, ih (m + 1) i]
      constructor
      · rintro ⟨h1, h2, h3, h4⟩
        refine ⟨by omega, by omega, h3, fun j hj1 hj2 => ?_⟩
        rcases Nat.eq_or_lt_of_le hj1 with he | hl
        · rw [← he]; exact hp2
        · exact h4 j (by omega) hj2
      · rintro ⟨h1, h2, h3, h4⟩
        have hmi : ¬ m = i := by
          intro he
          rw [← he] at h3
          rw [hp2] at h3
          cases h3
        exact ⟨by omega, by omega, h3, fun j hj1 hj2 => h4 j (by omega) hj2⟩

theorem find?_range (p : Nat → Bool) (n i : Nat) :
    ((List.range n).find? p = some i ↔
      i < n ∧ p i = true ∧ ∀ j < i, p j = false) := by
  rw [List.range_eq_range', find?_range' p n 0 i]
  constructor
  · rintro ⟨h1, h2, h3, h4⟩
    exact ⟨by omega, h3, fun j hj => h4 j (by omega) hj⟩
  · rintro ⟨h1, h2, h3⟩
    exact ⟨by omega, by omega, h2, fun j hj1 hj2 => h3 j hj2⟩

/-! ### The tap-creation name buffer

Embeds the ifreq name handling of create_or_reset_tap in
src/network.rs: the ifr_name array is 16 bytes of zeroes into which the
loop copies byte i of the requested name for every i below
min(15, len); the kernel then reads the array as a NUL-terminated
string.  The delete-if-exists lookup that precedes the ioctl matches on
the full requested name via netlink. -/

/-- The 16-byte ifr_name array after the copy loop: the first
min(15, len) bytes of the name, the rest still zero. -/
def ifrNameBuf (bytes : List Nat) : List Nat :=
  bytes.take 15 ++ List.replicate (16 - min 15 bytes.length) 0

/-- The interface name the kernel extracts from the array: the bytes
before the first NUL. -/
def kernelIfName (buf : List Nat) : List Nat := buf.takeWhile (fun b => !(b == 0))

/-- The name of the interface the TUNSETIFF ioctl creates. -/
def createdTapName (bytes : List Nat) : List Nat := kernelIfName (ifrNameBuf bytes)

/-- The names create_or_reset_tap acts through: the netlink
delete-if-exists lookup uses the full requested name, the ioctl
creates an interface under the possibly-truncated buffer name. -/
def create_or_reset_tap_names (name : List Nat) : List Nat × List Nat :=
  (name, createdTapName name)

theorem ifrNameBuf_length (bytes : List Nat) : (ifrNameBuf bytes).length = 16 := by
  rw [ifrNameBuf]
  simp [List.length_take, List.length_replicate]

theorem createdTapName_eq (bytes : List Nat) (h0 : ¬ 0 ∈ bytes) :
    createdTapName bytes = bytes.take 15 := by
  rw [createdTapName, ifrNameBuf, kernelIfName]
  have hall : ∀ b ∈ bytes.take 15, (!(b == 0)) = true := by
    intro b hb
    have hmem : b ∈ bytes := List.take_subset 15 bytes hb
    have hne : ¬ b = 0 := fun he => h0 (he ▸ hmem)
    simp [hne]
  rw [takeWhile_append_all _ _ _ hall]
  have hk : ∃ k, 16 - min 15 bytes.length = k + 1 := by
    have : min 15 bytes.length ≤ 15 := Nat.min_le_left _ _
    exact ⟨15 - min 15 bytes.length, by omega⟩
  obtain ⟨k, hk⟩ := hk
  rw [hk, List.replicate_succ, List.takeWhile_cons_of_neg (by simp), List.append_nil]

/-! ### Claim theorems -/

/-- C2: for every set of persisted VM records, allocate_vm_id returns
the smallest integer in [0,254] not among the in-use ids of those
records, and fails with the resource-exhaustion error exactly when all
255 ids in [0,254] are in use (the examples over ids 0,1,2 and 0,2 are
instances of the first conjunct). -/
theorem claim_c2_allocate_lowest_free (fs : Files) (i : Nat) :
    (allocate_vm_id fs = Except.ok i ↔
      i ≤ 254 ∧ ¬ i ∈ usedIds fs ∧ ∀ j < i, j ∈ usedIds fs) ∧
    (allocate_vm_id fs = Except.error Err.exhausted ↔ ∀ j ≤ 254, j ∈ usedIds fs) := by
  constructor
  · rw [allocate_vm_id]
    rcases hf : (List.range 255).find? (fun k => !((usedIds fs).contains k)) with _ | k
    · simp only []
      constructor
      · intro h; cases h
      · rintro ⟨h1, h2, h3⟩
        rw [List.find?_eq_none] at hf
        have h4 := hf i (by rw [List.mem_range]; omega)
        simp only [List.contains, List.elem_eq_mem, Bool.not_eq_true', decide_eq_false_iff_not,
          Decidable.not_not] at h4
        exact absurd h4 h2
    · simp only []
      rw [find?_range] at hf
      obtain ⟨hk1, hk2, hk3⟩ := hf
      simp only [List.contains, List.elem_eq_mem, Bool.not_eq_true', decide_eq_false_iff_not]
        at hk2
      constructor
      · intro h
        injection h with h
        subst h
        refine ⟨by omega, hk2, fun j hj => ?_⟩
        have h5 := hk3 j hj
        simp only [List.contains, List.elem_eq_mem, Bool.not_eq_true', decide_eq_false_iff_not]
          at h5
        simpa using h5
      · rintro ⟨h1, h2, h3⟩
        have hik : i = k := by
          by_contra hne
          rcases Nat.lt_or_ge i k with hl | hg
          · have h5 := hk3 i hl
            simp only [List.contains, List.elem_eq_mem, Bool.not_eq_true',
              decide_eq_false_iff_not] at h5
            simp at h5
            exact absurd h5 h2
          · have hkl : k < i := by omega
            exact absurd (h3 k hkl) hk2
        rw [hik]
  · rw [allocate_vm_id]
    rcases hf : (List.range 255).find? (fun k => !((usedIds fs).contains k)) with _ | k
    · simp only []
      rw [List.find?_eq_none] at hf
      constructor
      · intro _ j hj
        have h4 := hf j (by rw [List.mem_range]; omega)
        simp only [List.contains, List.elem_eq_mem, Bool.not_eq_true', decide_eq_false_iff_not,
          Decidable.not_not] at h4
        exact h4
      · intro _; trivial
    · simp only []
      rw [find?_range] at hf
      obtain ⟨hk1, hk2, hk3⟩ := hf
      simp only [List.contains, List.elem_eq_mem, Bool.not_eq_true', decide_eq_false_iff_not]
        at hk2
      constructor
      · intro h; cases h
      · intro hall
        exact absurd (hall k (by omega)) hk2

/-- C9: a persisted record file whose content does not parse as a VM
record contributes no id to the in-use set, so allocation over the
store with the corrupt file is allocation over the rest: it can hand
out the id the corrupt record meant to hold, and exhaustion is judged
only over parseable records. -/
theorem claim_c9_corrupt_records_ignored (p content : List Char) (fs : Files)
    (h : decodeMeta content = none) :
    usedIds ((p, content) :: fs) = usedIds fs ∧
    allocate_vm_id ((p, content) :: fs) = allocate_vm_id fs := by
  have hu : usedIds ((p, content) :: fs) = usedIds fs := by
    rw [usedIds_cons, h]
    by_cases hs : isStokerJson p = true
    · rw [if_pos hs]
    · rw [if_neg hs]
  exact ⟨hu, by rw [allocate_vm_id, allocate_vm_id, hu]⟩

/-- Witness for C9 at a concrete corrupt record: the file content
corrupt (a truncated JSON object) does not parse, contributes no id,
and allocation over a store holding only it still returns id 0. -/
theorem claim_c9_witness :
    decodeMeta "\x7b\"id\":0".data = none ∧
    (usedIds [(stokerFile "a".data, "\x7b\"id\":0".data)] = usedIds [] ∧
      allocate_vm_id [(stokerFile "a".data, "\x7b\"id\":0".data)] = allocate_vm_id []) ∧
    allocate_vm_id [] = Except.ok 0 :=
  ⟨by decide,
   claim_c9_corrupt_records_ignored (stokerFile "a".data) "\x7b\"id\":0".data [] (by decide),
   rfl⟩

/-- C4: for every id in [0,254] the derivation functions (total Lean
functions, as the format expressions in run_vm are total) produce a
syntactically valid IPv4 host address, a valid IPv4 guest address and
a valid MAC; host and guest share their dotted prefix and end in .1
and .2 respectively; and distinct ids give distinct host addresses,
guest addresses and MACs. -/
theorem claim_c4_derivations_valid_and_injective (i j : Nat) (hi : i ≤ 254)
    (hj : j ≤ 254) :
    isValidIPv4Chars (hostIpChars i) = true ∧
    isValidIPv4Chars (guestIpChars i) = true ∧
    isValidMacChars (macChars i) = true ∧
    (∃ pre, hostIpChars i = pre ++ ".1".data ∧ guestIpChars i = pre ++ ".2".data) ∧
    (i ≠ j → host_ip i ≠ host_ip j ∧ guest_ip i ≠ guest_ip j ∧
      mac_address i ≠ mac_address j) := by
  refine ⟨isValidIPv4_hostIp hi, isValidIPv4_guestIp hi, isValidMac_mac hi,
    ⟨"172.16.".data ++ natRepr i, rfl, rfl⟩, fun hne => ⟨?_, ?_, ?_⟩⟩
  · exact fun h => hne (host_ip_inj h)
  · exact fun h => hne (guest_ip_inj h)
  · exact fun h => hne (mac_address_inj (by omega) (by omega) h)

/-- Witness for C4 at ids 0 and 1. -/
theorem claim_c4_witness :
    (0 : Nat) ≤ 254 ∧ (1 : Nat) ≤ 254 ∧
    (isValidIPv4Chars (hostIpChars 0) = true ∧
      isValidIPv4Chars (guestIpChars 0) = true ∧
      isValidMacChars (macChars 0) = true ∧
      (∃ pre, hostIpChars 0 = pre ++ ".1".data ∧ guestIpChars 0 = pre ++ ".2".data) ∧
      ((0 : Nat) ≠ 1 → host_ip 0 ≠ host_ip 1 ∧ guest_ip 0 ≠ guest_ip 1 ∧
        mac_address 0 ≠ mac_address 1)) :=
  ⟨by decide, by decide,
    claim_c4_derivations_valid_and_injective 0 1 (by decide) (by decide)⟩

/-- The all-success run environment and empty initial state used in the
end-to-end evaluation of scenario A. -/
def env6 : RunEnv :=
  { tapOk := true, spawnOk := true, spawnPid := 42, resp := fun _ => (204, []),
    imageExists := true, copyOk := true, guestOk := true }

/-- The empty initial system state: no records, links or processes. -/
def st0 : SysState := { files := [], links := [], spawned := [], killed := [] }

/-- C6: a run over no existing VM records allocates id 0 and derives
host 172.16.0.1, guest 172.16.0.2, MAC 06:00:AC:10:00:02 and interface
tap-inet-0; an all-success run from the empty state persists exactly
that record under the default name fc-00. -/
theorem claim_c6_first_run_derivation :
    allocate_vm_id [] = Except.ok 0 ∧
    host_ip 0 = "172.16.0.1" ∧
    guest_ip 0 = "172.16.0.2" ∧
    mac_address 0 = "06:00:AC:10:00:02" ∧
    tap_device 0 = "tap-inet-0" ∧
    defaultName 0 = "fc-00" ∧
    (run_vm env6 "internet".data none st0).1 = Except.ok () ∧
    lookupFile (run_vm env6 "internet".data none st0).2.files
        (stokerFile "fc-00".data) =
      some (encodeMeta ⟨0, "fc-00".data, "internet".data, "172.16.0.2".data,
        "172.16.0.1".data, "06:00:AC:10:00:02".data, "tap-inet-0".data, 42⟩) :=
  ⟨rfl, rfl, rfl, rfl, rfl, rfl, rfl, rfl⟩

/-- C7: saving a record and loading it back by its name returns a
record equal to the original in all fields (id and pid within their
integer widths, as the persisted u8 / u32 fields are). -/
theorem claim_c7_save_load_roundtrip (m : InstanceMetadata) (fs : Files)
    (hid : m.id < 256) (hpid : m.pid < 4294967296) :
    loadMeta m.name (saveMeta m fs) = some m :=
  loadMeta_saveMeta m fs hid hpid

/-- The concrete record used by the C7 witness. -/
def m7 : InstanceMetadata :=
  ⟨7, "ab".data, "internet".data, "172.16.7.2".data, "172.16.7.1".data,
    "06:00:AC:10:07:02".data, "tap-inet-7".data, 4242⟩

/-- Witness for C7 at a concrete record and the empty store. -/
theorem claim_c7_witness :
    m7.id < 256 ∧ m7.pid < 4294967296 ∧
    loadMeta m7.name (saveMeta m7 []) = some m7 :=
  ⟨by decide, by decide, claim_c7_save_load_roundtrip m7 [] (by decide) (by decide)⟩

/-- C10: interface creation copies at most 15 bytes of the requested
name into the 16-byte kernel request buffer (whose last byte stays 0):
a NUL-free name of at most 15 bytes is created unchanged, a longer one
is silently truncated to its first 15 bytes, while the preceding
delete-if-exists lookup still matches the full untruncated name. -/
theorem claim_c10_tap_name_truncation (bytes : List Nat) (h0 : ¬ 0 ∈ bytes) :
    (create_or_reset_tap_names bytes).1 = bytes ∧
    (bytes.length ≤ 15 → (create_or_reset_tap_names bytes).2 = bytes) ∧
    (15 < bytes.length → (create_or_reset_tap_names bytes).2 = bytes.take 15) ∧
    (ifrNameBuf bytes).length = 16 := by
  refine ⟨rfl, ?_, ?_, ifrNameBuf_length bytes⟩
  · intro hle
    rw [show (create_or_reset_tap_names bytes).2 = createdTapName bytes from rfl,
      createdTapName_eq bytes h0, List.take_of_length_le hle]
  · intro _
    rw [show (create_or_reset_tap_names bytes).2 = createdTapName bytes from rfl,
      createdTapName_eq bytes h0]

/-- Witness for C10 at a concrete 17-byte name (tap-inet-verylong). -/
theorem claim_c10_witness :
    ¬ (0 : Nat) ∈ [116, 97, 112, 45, 105, 110, 101, 116, 45, 118, 101, 114, 121,
      108, 111, 110, 103] ∧
    ((create_or_reset_tap_names [116, 97, 112, 45, 105, 110, 101, 116, 45, 118, 101,
        114, 121, 108, 111, 110, 103]).1 =
      [116, 97, 112, 45, 105, 110, 101, 116, 45, 118, 101, 114, 121, 108, 111, 110,
        103] ∧
     ([116, 97, 112, 45, 105, 110, 101, 116, 45, 118, 101, 114, 121, 108, 111, 110,
        103].length ≤ 15 →
       (create_or_reset_tap_names [116, 97, 112, 45, 105, 110, 101, 116, 45, 118,
         101, 114, 121, 108, 111, 110, 103]).2 =
       [116, 97, 112, 45, 105, 110, 101, 116, 45, 118, 101, 114, 121, 108, 111, 110,
         103]) ∧
     (15 < [116, 97, 112, 45, 105, 110, 101, 116, 45, 118, 101, 114, 121, 108, 111,
        110, 103].length →
       (create_or_reset_tap_names [116, 97, 112, 45, 105, 110, 101, 116, 45, 118,
         101, 114, 121, 108, 111, 110, 103]).2 =
       [116, 97, 112, 45, 105, 110, 101, 116, 45, 118, 101, 114, 121, 108, 111, 110,
         103].take 15) ∧
     (ifrNameBuf [116, 97, 112, 45, 105, 110, 101, 116, 45, 118, 101, 114, 121, 108,
        111, 110, 103]).length = 16) :=
  ⟨by decide,
   claim_c10_tap_name_truncation
     [116, 97, 112, 45, 105, 110, 101, 116, 45, 118, 101, 114, 121, 108, 111, 110,
       103] (by decide)⟩

/-! ### Path disequalities and flow invariants used by the rm and run claims -/

theorem stokerFile_ne_socketFile (a b : List Char) : ¬ stokerFile a = socketFile b := by
  intro h
  simp [stokerFile, socketFile] at h

theorem stokerFile_ne_logFile (a b : List Char) : ¬ stokerFile a = logFile b := by
  intro h
  simp [stokerFile, logFile] at h

theorem stokerFile_ne_rootfsFile (a b : List Char) : ¬ stokerFile a = rootfsFile b := by
  intro h
  simp [stokerFile, rootfsFile] at h

theorem teardown_ok (env : RmEnv) (tap : List Char) (st : SysState)
    (hconn : env.connOk = true)
    (hdel : st.links.contains tap = false ∨ env.delOk = true) :
    ∃ st2, teardown_vm_tap env tap st = (Except.ok (), st2) := by
  rw [teardown_vm_tap, hconn]
  rcases hdel with hc | hd
  · rw [hc]
    exact ⟨st, rfl⟩
  · by_cases hc : st.links.contains tap = true
    · rw [hc, hd]
      exact ⟨{ st with links := st.links.erase tap }, rfl⟩
    · rw [Bool.not_eq_true] at hc
      rw [hc]
      exact ⟨st, rfl⟩

/-- C8: removal of a name with no persisted record fails with the
not-found error and leaves the whole system state unchanged: no kill,
no interface deletion, no file removal. -/
theorem claim_c8_rm_missing_record (env : RmEnv) (n : List Char) (st : SysState)
    (h : lookupFile st.files (stokerFile n) = none) :
    rm_vm env n st = (Except.error Err.notFound, st) := by
  rw [rm_vm, h]

/-- Witness for C8: removing the name a from the empty state. -/
theorem claim_c8_witness :
    lookupFile st0.files (stokerFile "a".data) = none ∧
    rm_vm ⟨true, true, true⟩ "a".data st0 = (Except.error Err.notFound, st0) :=
  ⟨rfl, claim_c8_rm_missing_record ⟨true, true, true⟩ "a".data st0 rfl⟩

/-- The record, stores and environments used by the C1 scenarios. -/
def c1meta : InstanceMetadata :=
  ⟨3, "a".data, "internet".data, "172.16.3.2".data, "172.16.3.1".data,
    "06:00:AC:10:03:02".data, "tap-inet-3".data, 99⟩

/-- A state holding the record for a with its tap interface present. -/
def c1st : SysState :=
  { files := [(stokerFile "a".data, encodeMeta c1meta)],
    links := ["tap-inet-3".data], spawned := [], killed := [] }

/-- A state holding the record for a with its tap interface absent. -/
def c1stNoLink : SysState :=
  { files := [(stokerFile "a".data, encodeMeta c1meta)],
    links := [], spawned := [], killed := [] }

/-- Counterexample to C1 as stated: with the interface present but its
netlink deletion failing, rm aborts with the netlink error and the
state record file is NOT deleted, although teardown was attempted (the
kill already happened). -/
theorem claim_c1_counterexample :
    (rm_vm ⟨true, false, true⟩ "a".data c1st).1 = Except.error Err.netlinkError ∧
    lookupFile (rm_vm ⟨true, false, true⟩ "a".data c1st).2.files (stokerFile "a".data) =
      some (encodeMeta c1meta) ∧
    (rm_vm ⟨true, false, true⟩ "a".data c1st).2.killed = [99] :=
  ⟨rfl, rfl, rfl⟩

/-- C1 amended: a failure to kill the recorded process or a missing
network interface never aborts the remaining teardown steps, and in
those cases the record file is deleted; but when the netlink delete of
a still-present interface fails (or the netlink connection cannot be
opened), rm aborts and the record file is retained. -/
theorem claim_c1_amended_rm_best_effort (env : RmEnv) (n content : List Char)
    (meta : InstanceMetadata) (st : SysState)
    (hlook : lookupFile st.files (stokerFile n) = some content)
    (hdec : decodeMeta content = some meta)
    (hconn : env.connOk = true)
    (hdel : st.links.contains meta.tap_device = false ∨ env.delOk = true) :
    (rm_vm env n st).1 = Except.ok () ∧
    lookupFile (rm_vm env n st).2.files (stokerFile n) = none := by
  rw [rm_vm, hlook]
  simp only []
  rw [hdec]
  simp only []
  have hdel2 : (if env.killOk then { st with killed := meta.pid :: st.killed }
      else st).links.contains meta.tap_device = false ∨ env.delOk = true := by
    rcases hdel with hc | hd
    · left
      by_cases hk : env.killOk = true
      · rw [hk]; exact hc
      · rw [Bool.not_eq_true] at hk; rw [hk]; exact hc
    · right; exact hd
  obtain ⟨st2, hstep⟩ := teardown_ok env meta.tap_device
    (if env.killOk then { st with killed := meta.pid :: st.killed } else st) hconn hdel2
  rw [hstep]
  refine ⟨rfl, ?_⟩
  show lookupFile
    (removeFile (removeFile (removeFile (removeFile st2.files (stokerFile n))
      (socketFile n)) (logFile n)) (rootfsFile n)) (stokerFile n) = none
  apply lookupFile_removeFile_none
  apply lookupFile_removeFile_none
  apply lookupFile_removeFile_none
  exact lookupFile_removeFile_self st2.files (stokerFile n)

/-- Witness for C1 amended: the interface is absent and the kill fails
(killOk false), yet rm succeeds and the record is gone. -/
theorem claim_c1_witness :
    lookupFile c1stNoLink.files (stokerFile "a".data) = some (encodeMeta c1meta) ∧
    decodeMeta (encodeMeta c1meta) = some c1meta ∧
    (c1stNoLink.links.contains c1meta.tap_device = false ∨ True) ∧
    (rm_vm ⟨true, true, false⟩ "a".data c1stNoLink).1 = Except.ok () ∧
    lookupFile (rm_vm ⟨true, true, false⟩ "a".data c1stNoLink).2.files
      (stokerFile "a".data) = none := by
  have h := claim_c1_amended_rm_best_effort ⟨true, true, false⟩ "a".data
    (encodeMeta c1meta) c1meta c1stNoLink rfl (by decide) rfl (Or.inl rfl)
  exact ⟨rfl, by decide, Or.inl rfl, h.1, h.2⟩

/-- C3: a non-success response to the boot-source control-channel PUT
aborts run with the API error carrying that status and body, and the
set of persisted VM records is untouched (the only file effects before
that point are the log-file create and the stale-socket removal). -/
theorem claim_c3_boot_failure_aborts (env : RunEnv) (mode : List Char)
    (nopt : Option (List Char)) (st : SysState) (i : Nat)
    (halloc : allocate_vm_id st.files = Except.ok i)
    (htap : env.tapOk = true) (hspawn : env.spawnOk = true)
    (hlog : is_success (env.resp "/logger").1 = true)
    (hboot : is_success (env.resp "/boot-source").1 = false) :
    (run_vm env mode nopt st).1 =
      Except.error (Err.apiError (env.resp "/boot-source").1
        (env.resp "/boot-source").2) ∧
    ∀ n, lookupFile (run_vm env mode nopt st).2.files (stokerFile n) =
      lookupFile st.files (stokerFile n) := by
  rw [run_vm, halloc]
  simp only [htap, hspawn, Bool.not_true, if_false]
  rw [run_vmApi]
  rw [show send_request env "/logger" = Except.ok () by rw [send_request, hlog, if_pos rfl]]
  simp only []
  rw [show send_request env "/boot-source" =
      Except.error (Err.apiError (env.resp "/boot-source").1 (env.resp "/boot-source").2) by
    rw [send_request, hboot]
    simp]
  simp only []
  refine ⟨rfl, fun n => ?_⟩
  show lookupFile (removeFile (writeFile st.files
    (logFile (nopt.getD (defaultNameChars i))) []) (socketFile (nopt.getD (defaultNameChars i))))
    (stokerFile n) = lookupFile st.files (stokerFile n)
  rw [lookupFile_removeFile_ne _ (stokerFile_ne_socketFile n _),
    lookupFile_writeFile_ne _ (stokerFile_ne_logFile n _)]

/-- The run environment whose boot-source call answers 400. -/
def envBoot400 : RunEnv :=
  { tapOk := true, spawnOk := true, spawnPid := 42,
    resp := fun p => if p == "/boot-source" then (400, "bad request".data) else (204, []),
    imageExists := true, copyOk := true, guestOk := true }

/-- Witness for C3: from the empty state, the 400 on boot-source
aborts the run with status 400 and the response body, and no record is
persisted. -/
theorem claim_c3_witness :
    allocate_vm_id st0.files = Except.ok 0 ∧
    envBoot400.resp "/boot-source" = (400, "bad request".data) ∧
    (run_vm envBoot400 "internet".data none st0).1 =
      Except.error (Err.apiError (envBoot400.resp "/boot-source").1
        (envBoot400.resp "/boot-source").2) ∧
    ∀ n, lookupFile (run_vm envBoot400 "internet".data none st0).2.files (stokerFile n) =
      lookupFile st0.files (stokerFile n) := by
  have h := claim_c3_boot_failure_aborts envBoot400 "internet".data none st0 0
    rfl rfl rfl (by decide) (by decide)
  exact ⟨rfl, by decide, h.1, h.2⟩

theorem run_vmApi_killed (env : RunEnv) (id : Nat) (name mode : List Char)
    (st : SysState) : (run_vmApi env id name mode st).2.killed = st.killed := by
  rw [run_vmApi]
  rcases h1 : send_request env "/logger" with e1 | u1
  · rfl
  · rcases h2 : send_request env "/boot-source" with e2 | u2
    · rfl
    · by_cases h3 : env.imageExists
      all_goals by_cases h4 : env.copyOk
      all_goals simp only [h3, h4, Bool.not_true, Bool.not_false, if_true, if_false]
      all_goals try rfl
      rcases h5 : send_request env "/drives/rootfs" with e5 | u5
      · rfl
      · rcases h6 : send_request env "/network-interfaces/net1" with e6 | u6
        · rfl
        · rcases h7 : send_request env "/actions" with e7 | u7
          · rfl
          · by_cases h8 : env.guestOk
            all_goals simp only [h8, Bool.not_true, Bool.not_false, if_true, if_false]
            all_goals rfl

theorem run_vmApi_spawned (env : RunEnv) (id : Nat) (name mode : List Char)
    (st : SysState) : (run_vmApi env id name mode st).2.spawned = st.spawned := by
  rw [run_vmApi]
  rcases h1 : send_request env "/logger" with e1 | u1
  · rfl
  · rcases h2 : send_request env "/boot-source" with e2 | u2
    · rfl
    · by_cases h3 : env.imageExists
      all_goals by_cases h4 : env.copyOk
      all_goals simp only [h3, h4, Bool.not_true, Bool.not_false, if_true, if_false]
      all_goals try rfl
      rcases h5 : send_request env "/drives/rootfs" with e5 | u5
      · rfl
      · rcases h6 : send_request env "/network-interfaces/net1" with e6 | u6
        · rfl
        · rcases h7 : send_request env "/actions" with e7 | u7
          · rfl
          · by_cases h8 : env.guestOk
            all_goals simp only [h8, Bool.not_true, Bool.not_false, if_true, if_false]
            all_goals rfl

theorem run_vm_killed (env : RunEnv) (mode : List Char) (nopt : Option (List Char))
    (st : SysState) : (run_vm env mode nopt st).2.killed = st.killed := by
  rw [run_vm]
  rcases h : allocate_vm_id st.files with e | id
  · rfl
  · cases htap : env.tapOk with
    | false => rfl
    | true =>
      cases hspawn : env.spawnOk with
      | false => rfl
      | true =>
        simp only [Bool.not_true, Bool.false_eq_true, if_false]
        rw [run_vmApi_killed]

theorem run_vm_spawned (env : RunEnv) (mode : List Char) (nopt : Option (List Char))
    (st : SysState) (i : Nat) (halloc : allocate_vm_id st.files = Except.ok i)
    (htap : env.tapOk = true) (hspawn : env.spawnOk = true) :
    (run_vm env mode nopt st).2.spawned = env.spawnPid :: st.spawned := by
  rw [run_vm, halloc]
  simp only [htap, hspawn, Bool.not_true, Bool.false_eq_true, if_false]
  rw [run_vmApi_spawned]

/-- Counterexample to C5 as stated: a run that fails at the
boot-source call after the hypervisor was spawned leaves the spawned
process alive — nothing is killed. -/
theorem claim_c5_counterexample :
    (run_vm envBoot400 "internet".data none st0).1 =
      Except.error (Err.apiError 400 "bad request".data) ∧
    (run_vm envBoot400 "internet".data none st0).2.spawned = [42] ∧
    (run_vm envBoot400 "internet".data none st0).2.killed = [] :=
  ⟨rfl, rfl, rfl⟩

/-- C5 amended: a run that fails after the hypervisor process has been
spawned performs no kill at all — the spawned process stays recorded
as running and the killed set is untouched; both process kill and
interface teardown are deferred to the removal path. -/
theorem claim_c5_amended_no_unwind_kill (env : RunEnv) (mode : List Char)
    (nopt : Option (List Char)) (st : SysState) (i : Nat) (e : Err)
    (halloc : allocate_vm_id st.files = Except.ok i)
    (htap : env.tapOk = true) (hspawn : env.spawnOk = true)
    (_hfail : (run_vm env mode nopt st).1 = Except.error e) :
    (run_vm env mode nopt st).2.killed = st.killed ∧
    env.spawnPid ∈ (run_vm env mode nopt st).2.spawned := by
  refine ⟨run_vm_killed env mode nopt st, ?_⟩
  rw [run_vm_spawned env mode nopt st i halloc htap hspawn]
  exact List.mem_cons_self _ _

/-- Witness for C5 amended at the 400-answering environment. -/
theorem claim_c5_witness :
    allocate_vm_id st0.files = Except.ok 0 ∧
    (run_vm envBoot400 "internet".data none st0).1 =
      Except.error (Err.apiError 400 "bad request".data) ∧
    (run_vm envBoot400 "internet".data none st0).2.killed = st0.killed ∧
    (42 : Nat) ∈ (run_vm envBoot400 "internet".data none st0).2.spawned := by
  have h := claim_c5_amended_no_unwind_kill envBoot400 "internet".data none st0 0
    (Err.apiError 400 "bad request".data) rfl rfl rfl rfl
  exact ⟨rfl, rfl, h.1, h.2⟩

end Stoker
